import Mathlib

/-!
Verification of the CasADi `Rootfinder` node (`src/casadi/core/function/rootfinder.cpp`).

The Rootfinder builds symbolic `MX` expression graphs in its derivative
propagation routines (`Rootfinder::forward`, `Rootfinder::reverse`), propagates
bit-vector dependency information in `sp_fwd` / `sp_rev`, and performs
configuration checks in `Rootfinder::init`.  We embed:

* the `MX` symbolic-matrix expressions that the propagation code constructs,
  as a deep syntax tree (`MX`), with the oracle's own forward / reverse
  propagation and the Jacobian function as abstract parameters of the model
  (they are external collaborators, not part of this translation unit);
* `Rootfinder::forward` and `Rootfinder::reverse` as Lean functions over that
  syntax, following the C++ line by line;
* `Rootfinder::sp_fwd` / `Rootfinder::sp_rev` over bit-vector buffers, with
  the oracle's structural propagation and `Sparsity::spsolve` abstract;
* `Rootfinder::init` as an `Except`-returning function mirroring the order of
  the `casadi_assert_message` checks.
-/

namespace Rootfinder

/-- List indexing with a default value, the reading that the C++ `v[i]` /
`v.at(i)` accesses have under the well-formedness hypotheses of the theorems
below. -/
def idx {α : Type} (l : List α) (i : Nat) (d : α) : α := l.getD i d

/-- Resize a list to length `k`, padding with `d` (mirrors `std::vector::resize`). -/
def resizeTo {α : Type} (l : List α) (k : Nat) (d : α) : List α :=
  l.take k ++ List.replicate (k - l.length) d

/-- Deep embedding of the `MX` symbolic matrix expressions constructed by
`Rootfinder::forward` / `Rootfinder::reverse`.  Constructors correspond to the
`MX` operations appearing in those two functions:

* `empty` is the default-constructed `MX()` (0-by-0);
* `zeroSz r c` is `MX(r, c)`, an all-zero matrix of the given dimensions;
* `vecM`, `reshapeM`, `negM`, `addM`, `horzcatM` are the corresponding `MX`
  operations;
* `solveM J b tr` is `J->getSolve(b, tr, linsol_)`, the linear-solve node;
* `hsplitM m d` is the `d`-th piece of `horzsplit(m)` (one column block per
  seed direction);
* `symM` is a symbolic primitive, used only to build concrete test inputs. -/
inductive MX : Type where
  | empty : MX
  | zeroSz : Nat → Nat → MX
  | symM : String → Nat → Nat → MX
  | vecM : MX → MX
  | reshapeM : MX → Nat → Nat → MX
  | negM : MX → MX
  | addM : MX → MX → MX
  | horzcatM : List MX → MX
  | solveM : MX → MX → Bool → MX
  | hsplitM : MX → Nat → MX
  deriving Repr, Inhabited

/-- Dimensions of an embedded `MX` expression (used only to decide
`MX::is_empty`). -/
def MX.sizeOfM : MX → Nat × Nat
  | .empty => (0, 0)
  | .zeroSz r c => (r, c)
  | .symM _ r c => (r, c)
  | .vecM m => (m.sizeOfM.1 * m.sizeOfM.2, 1)
  | .reshapeM _ r c => (r, c)
  | .negM m => m.sizeOfM
  | .addM a _ => a.sizeOfM
  | .horzcatM ms =>
    ((ms.attach.map (fun x => x.1.sizeOfM)).headD (0, 0) |>.1,
     (ms.attach.map (fun x => x.1.sizeOfM.2)).sum)
  | .solveM _ b _ => b.sizeOfM
  | .hsplitM m _ => m.sizeOfM
decreasing_by
  all_goals simp_wf
  all_goals try omega
  all_goals (have h := List.sizeOf_lt_of_mem x.2; omega)

/-- Test for `MX::is_empty(true)`: both dimensions zero, as for the
default-constructed `MX()` placeholder that `std::vector<MX>::resize` inserts. -/
def MX.isEmptyBoth (m : MX) : Bool := m.sizeOfM.1 = 0 && m.sizeOfM.2 = 0

/-- Model of the Rootfinder node for derivative propagation: the structural
data fixed at `init` (`n_in`, `n_out`, `iin_`, `iout_`, input/output shapes)
together with the external collaborators: the oracle's forward and reverse
symbolic propagation (`oracle_->forward`, `oracle_->reverse`) and the cached
Jacobian function (`jac(f_arg).front()` for the function stored as
`jac_f_z`). -/
structure RFModel : Type where
  nIn : Nat
  nOut : Nat
  iin : Nat
  iout : Nat
  sizeIn : Nat → Nat × Nat
  sizeOut : Nat → Nat × Nat
  oracleFwd : List MX → List MX → List (List MX) → List (List MX)
  oracleRev : List MX → List MX → List (List MX) → List (List MX)
  jacF : List MX → MX

/-- Shape of the `i`-th node input as an (rows, cols) pair, `size_in(i)`. -/
def RFModel.szIn (M : RFModel) (i : Nat) : Nat × Nat := M.sizeIn i

/-- Zero matrix `MX(size_in(iin_))`, the zero residual / ignored seed used
throughout `Rootfinder::forward` and `Rootfinder::reverse`. -/
def rfZres (M : RFModel) : MX := .zeroSz (M.sizeIn M.iin).1 (M.sizeIn M.iin).2

/-- Oracle argument vector used for derivative propagation: `f_arg` is `arg`
with the unknown input slot `iin_` replaced by the converged root
`res.at(iout_)` (rootfinder.cpp lines 333-334 and 376-377). -/
def rfFArg (M : RFModel) (arg res : List MX) : List MX :=
  arg.set M.iin (idx res M.iout .empty)

/-- Oracle result vector with the residual output held at zero: `f_res` is
`res` with slot `iout_` replaced by `MX(size_in(iin_))` (lines 335-336 and
384-385). -/
def rfFRes (M : RFModel) (res : List MX) : List MX :=
  res.set M.iout (rfZres M)

/-- Forward seeds passed to the oracle: each direction of `fseed` with the
seed for the guess input `iin_` replaced by zero (lines 337-340). -/
def rfFFseed (M : RFModel) (fseed : List (List MX)) : List (List MX) :=
  fseed.map (fun s => s.set M.iin (rfZres M))

/-- Provisional forward sensitivities: the oracle's own forward propagation of
the zeroed seeds at the converged root (line 341). -/
def rfProv (M : RFModel) (arg res : List MX) (fseed : List (List MX)) : List (List MX) :=
  M.oracleFwd (rfFArg M arg res) (rfFRes M res) (rfFFseed M fseed)

/-- Solved root sensitivity for direction `d`: the `d`-th column block of the
batched linear solve `J->getSolve(-horzcat(rhs), false, linsol_)`, reshaped to
`size_in(iin_)`, where `rhs[e] = vec(fsens[e][iout_])` stacks the provisional
residual seeds of all directions (lines 343-351). -/
def rfDz (M : RFModel) (arg res : List MX) (fseed : List (List MX)) (d : Nat) : MX :=
  .reshapeM
    (.hsplitM
      (.solveM (M.jacF (rfFArg M arg res))
        (.negM (.horzcatM ((List.range fseed.length).map
          (fun e => MX.vecM (idx (idx (rfProv M arg res fseed) e []) M.iout .empty)))))
        false)
      d)
    (M.sizeIn M.iin).1 (M.sizeIn M.iin).2

/-- Forward sensitivities after the batched solve: direction `d` is the
provisional sensitivities with the root output slot overwritten by the solved
`dz` (line 351). -/
def rfFsens1 (M : RFModel) (arg res : List MX) (fseed : List (List MX)) : List (List MX) :=
  (List.range fseed.length).map
    (fun d => (idx (rfProv M arg res fseed) d []).set M.iout (rfDz M arg res fseed d))

/-- Seeds for the second oracle pass when auxiliary outputs exist: the zeroed
seeds with the solved `dz` substituted for the unknown input (line 356). -/
def rfFseed2 (M : RFModel) (arg res : List MX) (fseed : List (List MX)) : List (List MX) :=
  (List.range fseed.length).map
    (fun d => (idx (rfFFseed M fseed) d []).set M.iin
      (idx (idx (rfFsens1 M arg res fseed) d []) M.iout .empty))

/-- Translation of `Rootfinder::forward` (rootfinder.cpp lines 320-360):
quick return on no seeds; oracle forward propagation of the zeroed seeds;
batched non-transposed linear solve for the root sensitivities; and when the
oracle has auxiliary outputs (`n_out > 1`), a second oracle forward pass with
`dz` substituted, after which the root output slot is restored to `dz`
(line 358: `fsens[d][iout_] = f_fseed[d][iin_]`). -/
def rfForward (M : RFModel) (arg res : List MX) (fseed : List (List MX)) : List (List MX) :=
  if fseed.length = 0 then []
  else if 1 < M.nOut then
    (List.range fseed.length).map
      (fun d => (idx (M.oracleFwd (rfFArg M arg res) (rfFRes M res)
                       (rfFseed2 M arg res fseed)) d []).set M.iout
        (idx (idx (rfFseed2 M arg res fseed) d []) M.iin .empty))
  else rfFsens1 M arg res fseed

/-- Adjoint seeds for the auxiliary-output reverse pass, direction `d`:
`f_aseed[d][i]` is the zero residual at `i = iout_` and `aseed[d][i]`
otherwise (rootfinder.cpp lines 386-390). -/
def rvAseed1 (M : RFModel) (aseed : List (List MX)) (d : Nat) : List MX :=
  (List.range M.nOut).map
    (fun i => if i = M.iout then rfZres M else idx (idx aseed d []) i .empty)

/-- Adjoint sensitivities of the auxiliary outputs back-propagated through the
oracle with the residual seed held at zero (line 396), used only when
`n_out > 1`. -/
def rvAux (M : RFModel) (arg res : List MX) (aseed : List (List MX)) : List (List MX) :=
  M.oracleRev (rfFArg M arg res) (rfFRes M res)
    ((List.range aseed.length).map (rvAseed1 M aseed))

/-- Right-hand side of the adjoint linear system for direction `d`:
`vec(asens_aux[d][iin_] + aseed[d][iout_])` when auxiliary outputs exist,
`vec(aseed[d][iout_])` otherwise (lines 393-400). -/
def rvRhs (M : RFModel) (arg res : List MX) (aseed : List (List MX)) (d : Nat) : MX :=
  if 1 < M.nOut then
    .vecM (.addM (idx (idx (rvAux M arg res aseed) d []) M.iin .empty)
                 (idx (idx aseed d []) M.iout .empty))
  else
    .vecM (idx (idx aseed d []) M.iout .empty)

/-- Adjoint multiplier for direction `d`: the `d`-th column block of the
batched transposed solve `J->getSolve(-horzcat(rhs), true, linsol_)`,
reshaped to `size_out(iout_)` (lines 402-407). -/
def rvLam (M : RFModel) (arg res : List MX) (aseed : List (List MX)) (d : Nat) : MX :=
  .reshapeM
    (.hsplitM
      (.solveM (M.jacF (rfFArg M arg res))
        (.negM (.horzcatM ((List.range aseed.length).map (rvRhs M arg res aseed))))
        true)
      d)
    (M.sizeOut M.iout).1 (M.sizeOut M.iout).2

/-- Adjoint seeds for the final reverse pass, direction `d`: the multiplier at
the residual output, all other output seeds zeroed to avoid double counting
(lines 404-413). -/
def rvAseed2 (M : RFModel) (arg res : List MX) (aseed : List (List MX)) (d : Nat) : List MX :=
  (List.range M.nOut).map
    (fun i => if i = M.iout then rvLam M arg res aseed d
              else .zeroSz (M.sizeOut i).1 (M.sizeOut i).2)

/-- Saved placeholder for the guess input's adjoint sensitivity, direction
`d`: after `asens.resize(nadj)` and `asens[d].resize(num_in)`, the slot
`asens[d][iin_]` if non-empty, else the zero matrix `MX(size_in(iin_))`
(lines 416-420). -/
def rvTmp (M : RFModel) (asens0 : List (List MX)) (nadj d : Nat) : MX :=
  let a := resizeTo (idx (resizeTo asens0 nadj []) d []) M.nIn .empty
  let v := idx a M.iin .empty
  if v.isEmptyBoth then rfZres M else v

/-- Adjoint input sensitivities from the final oracle reverse pass (line 423). -/
def rvMain (M : RFModel) (arg res : List MX) (aseed : List (List MX)) : List (List MX) :=
  M.oracleRev (rfFArg M arg res) (rfFRes M res)
    ((List.range aseed.length).map (rvAseed2 M arg res aseed))

/-- Translation of `Rootfinder::reverse` (rootfinder.cpp lines 362-436):
`asens.resize(nadj)` then quick return on no seeds; back-propagation of the
auxiliary output seeds when `n_out > 1`; batched transposed linear solve; a
final oracle reverse pass seeded with the multiplier; restoration of the
guess slot `asens[d][iin_]` to its saved placeholder (lines 426-428); and
accumulation of the auxiliary outputs' direct contributions into every input
slot except `iin_` (lines 430-435). -/
def rfReverse (M : RFModel) (arg res : List MX) (aseed asens0 : List (List MX)) :
    List (List MX) :=
  if aseed.length = 0 then resizeTo asens0 0 []
  else
    (List.range aseed.length).map (fun d =>
      let base := (idx (rvMain M arg res aseed) d []).set M.iin
        (rvTmp M asens0 aseed.length d)
      if 1 < M.nOut then
        (List.range base.length).map (fun i =>
          if i ≠ M.iin ∧ i < M.nIn then
            .addM (idx base i .empty) (idx (idx (rvAux M arg res aseed) d []) i .empty)
          else idx base i .empty)
      else base)

/-- Dependency bit-vector of length `n`, one machine word of dependency bits
per vector entry (`bvec_t` buffer). -/
abbrev BVec : Type := List Nat

/-- All-zero bit buffer of length `n` (`fill_n(p, n, 0)`). -/
def bzero (n : Nat) : BVec := List.replicate n 0

/-- Entrywise bitwise OR of two bit buffers, the accumulation operation of
reverse structural propagation. -/
def lorB (a b : BVec) : BVec := List.zipWith Nat.lor a b

/-- Model of the Rootfinder node for structural dependency propagation: the
fixed indices and dimension, together with the external collaborators.
`spFwd args i` is the bit pattern the oracle's forward structural propagation
writes into the (non-null) buffer of output `i`, given the input buffers
`args` (a null pointer, `none`, meaning no dependency).  `spRev seeds i` is
the contribution the oracle's reverse structural propagation ORs into the
(non-null) buffer of input `i`, given the output seed buffers.  `spsolve x r
tr` is `Sparsity::spsolve(x, r, tr)` on the cached Jacobian sparsity
`sp_jac_`, the boolean/OR structural solve started from buffer contents
`x`. -/
structure SpModel : Type where
  nIn : Nat
  nOut : Nat
  iin : Nat
  iout : Nat
  n : Nat
  spFwd : List (Option BVec) → Nat → BVec
  spRev : List (Option BVec) → Nat → BVec
  spsolve : BVec → BVec → Bool → BVec

/-- Translation of `Rootfinder::sp_fwd` (rootfinder.cpp lines 251-278).
The pointer array `arg1` is a copy of `arg` with a null pointer for the
unknown input; the oracle's forward structural propagation writes the
residual bits into the scratch buffer `tmp1`; `tmp2` is the structural solve
of `tmp1` against the Jacobian sparsity starting from a zero-filled buffer;
`tmp2` is copied into `res[iout_]` when that pointer is non-null; and when
auxiliary outputs exist, a second oracle pass with `arg1[iin_] = tmp2`
overwrites every other non-null output buffer. -/
def spFwdRun (M : SpModel) (arg res : List (Option BVec)) : List (Option BVec) :=
  let arg1 := arg.set M.iin none
  let tmp1 := M.spFwd arg1 M.iout
  let tmp2 := M.spsolve (bzero M.n) tmp1 false
  let res2 := if (idx res M.iout none).isSome then res.set M.iout (some tmp2) else res
  if 1 < M.nOut then
    let arg1b := arg1.set M.iin (some tmp2)
    (List.range res2.length).map (fun i =>
      if i = M.iout then idx res2 i none
      else (idx res2 i none).map (fun _ => M.spFwd arg1b i))
  else res2

/-- Translation of `Rootfinder::sp_rev` (rootfinder.cpp lines 280-314),
returning the updated `(arg, res)` buffer arrays.  The seed on the residual
output is copied into `tmp1` and its buffer cleared (or taken as zero on a
null pointer); when auxiliary outputs exist, their seeds are back-propagated
with `arg1[iin_] = tmp1` (so the contribution to the unknown accumulates in
the scratch buffer, not in the caller's `arg[iin_]`) and `res1[iout_] = 0`;
the combined bits are transpose-solved structurally from a zero-filled
buffer; and the final reverse pass is seeded with `tmp2` on the residual
output only, with a null pointer for the unknown input. -/
def spRevRun (M : SpModel) (arg res : List (Option BVec)) :
    List (Option BVec) × List (Option BVec) :=
  let tmp1 := (idx res M.iout none).getD (bzero M.n)
  let res2 := if (idx res M.iout none).isSome then res.set M.iout (some (bzero M.n)) else res
  let seeds1 := (List.range M.nOut).map (fun i => if i = M.iout then none else idx res2 i none)
  let arg2 := if 1 < M.nOut then
      (List.range arg.length).map (fun i =>
        if i = M.iin then idx arg i none
        else (idx arg i none).map (fun b => lorB b (M.spRev seeds1 i)))
    else arg
  let tmp1b := if 1 < M.nOut then lorB tmp1 (M.spRev seeds1 M.iin) else tmp1
  let tmp2 := M.spsolve (bzero M.n) tmp1b true
  let seeds2 := (List.range M.nOut).map (fun i => if i = M.iout then some tmp2 else none)
  let arg3 := (List.range arg2.length).map (fun i =>
    if i = M.iin then idx arg2 i none
    else (idx arg2 i none).map (fun b => lorB b (M.spRev seeds2 i)))
  (arg3, res2)

/-- Shape data of a casadi `Sparsity` as far as the `init` checks consult it:
row count, column count and number of structural nonzeros. -/
structure SpShape : Type where
  nrow : Nat
  ncol : Nat
  nnz : Nat
  deriving DecidableEq, Repr

/-- Modelled from the spec: `Sparsity::is_dense` is not under src/; the spec
requires the residual and the unknown to be dense vectors, i.e. every entry
structurally present. -/
def SpShape.isDense (s : SpShape) : Bool := s.nnz = s.nrow * s.ncol

/-- Modelled from the spec: `Sparsity::is_column` is not under src/; the spec
requires the residual and the unknown to be column vectors, i.e. a single
column. -/
def SpShape.isColumn (s : SpShape) : Bool := s.ncol = 1

/-- Signature of the oracle as consulted by `Rootfinder::init`: number of
inputs and outputs and the sparsity shapes of each input and output. -/
structure OracleSig : Type where
  nIn : Nat
  nOut : Nat
  spIn : Nat → SpShape
  spOut : Nat → SpShape

/-- Square structural pattern of the Jacobian of the residual with respect to
the unknown: dimension `n` and the list of structurally nonzero (row, column)
positions. -/
structure JacPattern : Type where
  n : Nat
  ent : List (Nat × Nat)

/-- Modelled from the spec: `Sparsity::is_singular` and `sprank` are not
under src/.  The spec defines structural non-singularity as the existence of
a perfect matching between rows and columns of the Jacobian sparsity: an
injective assignment of a distinct structurally nonzero row to every
column. -/
def hasPerfectMatching (J : JacPattern) : Prop :=
  ∃ f : Fin J.n → Fin J.n, Function.Injective f ∧ ∀ j : Fin J.n, ((f j).val, j.val) ∈ J.ent

instance (J : JacPattern) : Decidable (hasPerfectMatching J) := by
  unfold hasPerfectMatching; infer_instance

/-- Modelled from the spec: a partial matching of columns to structurally
nonzero rows — the injectivity witness underlying the structural rank. -/
def isPartialMatching (J : JacPattern) (f : Fin J.n → Option (Fin J.n)) : Prop :=
  (∀ j r, f j = some r → (r.val, j.val) ∈ J.ent) ∧
  (∀ j1 j2 r, f j1 = some r → f j2 = some r → j1 = j2)

instance (J : JacPattern) (f : Fin J.n → Option (Fin J.n)) :
    Decidable (isPartialMatching J f) := by
  unfold isPartialMatching; infer_instance

/-- Number of columns matched by a partial matching. -/
def matchedCount (J : JacPattern) (f : Fin J.n → Option (Fin J.n)) : Nat :=
  (Finset.univ.filter (fun j => (f j).isSome)).card

/-- Modelled from the spec: the structural rank `sprank` reported in the
singularity diagnostic — the size of a maximum partial matching between rows
and columns of the Jacobian sparsity. -/
def sprankJ (J : JacPattern) : Nat :=
  Nat.findGreatest (fun k => ∃ f, isPartialMatching J f ∧ matchedCount J f = k) J.n

/-- Fatal setup-time conditions raised by `Rootfinder::init`, in the order of
the `casadi_assert_message` checks; each constructor carries the data quoted
in the corresponding diagnostic message. -/
inductive InitError : Type where
  | implicitInputRange : InitError
  | implicitOutputRange : InitError
  | residualNotDenseColumn : InitError
  | unknownNotDenseColumn : InitError
  | dimensionMismatch : Nat → Nat → InitError
  | structuralSingularity : Nat → Nat → InitError
  | constraintLength : Nat → Nat → InitError
  deriving DecidableEq, Repr

/-- Configuration a successful `Rootfinder::init` commits to: the system
dimension `n_` and the cached Jacobian sparsity `sp_jac_`. -/
structure RFConfig : Type where
  n : Nat
  spJac : JacPattern

/-- Translation of the checks of `Rootfinder::init` (rootfinder.cpp lines
98-168), in source order: implicit input index in range, implicit output
index in range, residual a dense column vector, unknown a dense column
vector, matching nonzero counts of unknown and residual, structural
non-singularity of the Jacobian sparsity (checked before any evaluation or
numeric solve — `init` performs none), and a constraint vector either empty
or of length `n`.  The indices are C++ `int`s, hence `Int` here; `jacSp`
stands for `jac.sparsity_out(0)` of the (supplied or autogenerated) Jacobian
function; `ucLen` is the length of the supplied constraints vector. -/
def rfInit (o : OracleSig) (iin iout : Int) (jacSp : JacPattern) (ucLen : Nat) :
    Except InitError RFConfig :=
  if ¬ (0 ≤ iin ∧ iin < o.nIn ∧ 0 < o.nIn) then .error .implicitInputRange
  else if ¬ (0 ≤ iout ∧ iout < o.nOut ∧ 0 < o.nOut) then .error .implicitOutputRange
  else if ¬ ((o.spOut iout.toNat).isDense ∧ (o.spOut iout.toNat).isColumn) then
    .error .residualNotDenseColumn
  else if ¬ ((o.spIn iin.toNat).isDense ∧ (o.spIn iin.toNat).isColumn) then
    .error .unknownNotDenseColumn
  else if (o.spIn iin.toNat).nnz ≠ (o.spOut iout.toNat).nnz then
    .error (.dimensionMismatch (o.spIn iin.toNat).nnz (o.spOut iout.toNat).nnz)
  else if ¬ hasPerfectMatching jacSp then
    .error (.structuralSingularity (sprankJ jacSp) jacSp.n)
  else if ¬ (ucLen = (o.spOut iout.toNat).nnz ∨ ucLen = 0) then
    .error (.constraintLength ucLen (o.spOut iout.toNat).nnz)
  else .ok ⟨(o.spOut iout.toNat).nnz, jacSp⟩

/-- Test for a failed `init`: the setup aborted with a fatal error. -/
def initFails (r : Except InitError RFConfig) : Bool :=
  match r with
  | .error _ => true
  | .ok _ => false

/-- Concrete oracle forward propagation for witness instances: every
direction yields two output sensitivities built from the seed vector. -/
def wOrFwd : List MX → List MX → List (List MX) → List (List MX) :=
  fun _ _ s => s.map (fun t => [MX.horzcatM t, MX.horzcatM (t ++ t)])

/-- Concrete oracle reverse propagation for witness instances: every
direction yields two input sensitivities built from the seed vector. -/
def wOrRev : List MX → List MX → List (List MX) → List (List MX) :=
  fun _ _ s => s.map (fun t => [MX.horzcatM (t ++ t), MX.horzcatM t])

/-- Concrete Rootfinder model for witness instances: two inputs, two outputs
(so auxiliary outputs exist), unknown input 0, residual output 1. -/
def WM : RFModel :=
  { nIn := 2, nOut := 2, iin := 0, iout := 1,
    sizeIn := fun _ => (1, 1), sizeOut := fun _ => (1, 1),
    oracleFwd := wOrFwd, oracleRev := wOrRev,
    jacF := fun a => MX.horzcatM a }

/-- Concrete node inputs for witness instances: guess and parameter. -/
def wArg : List MX := [MX.symM "x0" 1 1, MX.symM "p" 1 1]

/-- Concrete node outputs for witness instances: auxiliary output and root. -/
def wRes : List MX := [MX.symM "aux" 1 1, MX.symM "z" 1 1]

/-- Concrete forward seed direction for witness instances. -/
def wFseed : List (List MX) := [[MX.symM "sg" 1 1, MX.symM "sp" 1 1]]

/-- Second forward seed direction differing from `wFseed` only in the seed
for the guess input (slot 0). -/
def wFseedB : List (List MX) := [[MX.symM "sg2" 1 1, MX.symM "sp" 1 1]]

/-- Concrete adjoint seed direction for witness instances. -/
def wAseed : List (List MX) := [[MX.symM "aa" 1 1, MX.symM "az" 1 1]]

/-- Concrete pre-populated adjoint sensitivities for witness instances: the
guess slot holds a non-empty placeholder. -/
def wAsens0 : List (List MX) := [[MX.symM "pre" 1 1, MX.symM "qq" 1 1]]

/-- Concrete structural propagation model for witness instances. -/
def WS : SpModel :=
  { nIn := 2, nOut := 2, iin := 0, iout := 1, n := 1,
    spFwd := fun args i => [args.length + i],
    spRev := fun seeds i => [seeds.length + 2 * i],
    spsolve := fun x r tr => if tr then r ++ x else r }

/-- Concrete input dependency buffers for witness instances. -/
def wSArg : List (Option BVec) := [some [3], some [4]]

/-- Concrete output dependency buffers for witness instances. -/
def wSRes : List (Option BVec) := [some [5], some [6]]

/-- Concrete well-formed oracle signature for witness instances: one input,
one output, each a dense 1-by-1 column. -/
def wSig : OracleSig := ⟨1, 1, fun _ => ⟨1, 1, 1⟩, fun _ => ⟨1, 1, 1⟩⟩

/-- Concrete structurally singular 1-by-1 Jacobian pattern (no nonzeros). -/
def wJacSing : JacPattern := ⟨1, []⟩

/-- Concrete structurally non-singular 1-by-1 Jacobian pattern. -/
def wJacOk : JacPattern := ⟨1, [(0, 0)]⟩

theorem idx_set_self {α : Type} (l : List α) (i : Nat) (a d : α) (h : i < l.length) :
    idx (l.set i a) i d = a := by
  simp [idx, List.getD_eq_getElem?_getD, List.getElem?_set_self, h]

theorem idx_set_ne {α : Type} (l : List α) (i j : Nat) (a d : α) (h : i ≠ j) :
    idx (l.set i a) j d = idx l j d := by
  simp [idx, List.getD_eq_getElem?_getD, List.getElem?_set_ne h]

theorem idx_range_map {α : Type} (f : Nat → α) (n d : Nat) (dflt : α) (h : d < n) :
    idx ((List.range n).map f) d dflt = f d := by
  simp [idx, List.getD_eq_getElem?_getD, List.getElem?_map, List.getElem?_range h]

theorem idx_map {α β : Type} (l : List α) (f : α → β) (d : Nat) (d1 : β) (d2 : α)
    (h : d < l.length) : idx (l.map f) d d1 = f (idx l d d2) := by
  simp [idx, List.getD_eq_getElem?_getD, List.getElem?_map, List.getElem?_eq_getElem h]

theorem idx_of_getElem? {α : Type} (l : List α) (d : Nat) (w dflt : α)
    (h : l[d]? = some w) : idx l d dflt = w := by
  simp [idx, List.getD_eq_getElem?_getD, h]

/-- C10: with an empty seed list, `Rootfinder::forward` and
`Rootfinder::reverse` return immediately with an empty sensitivity list;
the result is independent of the model (of the oracle propagation
functions, the Jacobian function and the linear-solve facility), so no
oracle propagation, Jacobian evaluation or linear solve takes place. -/
theorem no_seed_quick_return :
    ∀ (M : RFModel) (arg res : List MX) (asens0 : List (List MX)),
      rfForward M arg res [] = [] ∧ rfReverse M arg res [] asens0 = [] := by
  intro M arg res asens0
  refine ⟨by simp [rfForward], ?_⟩
  simp [rfReverse, resizeTo]

theorem getElem?_idx {α : Type} (l : List α) (d : Nat) (dflt : α) (h : d < l.length) :
    l[d]? = some (idx l d dflt) := by
  simp [idx, List.getD_eq_getElem?_getD, List.getElem?_eq_getElem h]

/-- C3: the forward seed supplied for the unknown input `iin_` has no
influence on any computed output sensitivity: two calls to
`Rootfinder::forward` whose seed lists agree except possibly in the guess
slot `fseed[d][iin_]` (that is, they become equal once that slot is
overwritten) produce identical `fsens`, because the guess seed is replaced
by zero before any propagation (rootfinder.cpp lines 337-340). -/
theorem forward_guess_seed_invariance (M : RFModel) (arg res : List MX)
    (fseed1 fseed2 : List (List MX))
    (hlen : fseed1.length = fseed2.length)
    (hoff : ∀ d, d < fseed1.length →
      (idx fseed1 d []).set M.iin MX.empty = (idx fseed2 d []).set M.iin MX.empty) :
    rfForward M arg res fseed1 = rfForward M arg res fseed2 := by
  have hff : rfFFseed M fseed1 = rfFFseed M fseed2 := by
    apply List.ext_getElem?
    intro d
    simp only [rfFFseed, List.getElem?_map]
    by_cases hd : d < fseed1.length
    · rw [getElem?_idx fseed1 d [] hd, getElem?_idx fseed2 d [] (hlen ▸ hd)]
      simp only [Option.map_some']
      congr 1
      calc (idx fseed1 d []).set M.iin (rfZres M)
          = ((idx fseed1 d []).set M.iin MX.empty).set M.iin (rfZres M) := by
            rw [List.set_set]
        _ = ((idx fseed2 d []).set M.iin MX.empty).set M.iin (rfZres M) := by
            rw [hoff d hd]
        _ = (idx fseed2 d []).set M.iin (rfZres M) := by rw [List.set_set]
    · rw [List.getElem?_eq_none (by omega), List.getElem?_eq_none (by omega : fseed2.length ≤ d)]
  simp only [rfForward, rfFseed2, rfFsens1, rfDz, rfProv, hff, hlen]

/-- Witness for C3 at a concrete model: the two seed lists differ exactly in
the guess slot. -/
theorem forward_guess_seed_invariance_witness :
    rfForward WM wArg wRes wFseed = rfForward WM wArg wRes wFseedB :=
  forward_guess_seed_invariance WM wArg wRes wFseed wFseedB rfl
    (by
      intro d hd
      have hd0 : d = 0 := Nat.lt_one_iff.mp hd
      subst hd0
      rfl)

theorem idx_rfFFseed (M : RFModel) (fseed : List (List MX)) (d : Nat)
    (hd : d < fseed.length) :
    idx (rfFFseed M fseed) d [] = (idx fseed d []).set M.iin (rfZres M) := by
  simp only [rfFFseed]
  exact idx_map fseed _ d [] [] hd

theorem rfFseed2_resolved (M : RFModel) (arg res : List MX) (fseed : List (List MX))
    (hprovAll : ∀ e, e < fseed.length →
      M.iout < (idx (rfProv M arg res fseed) e []).length) :
    rfFseed2 M arg res fseed
      = (List.range fseed.length).map (fun e =>
          (idx (rfFFseed M fseed) e []).set M.iin (rfDz M arg res fseed e)) := by
  simp only [rfFseed2]
  apply List.map_congr_left
  intro e he
  have he2 : e < fseed.length := List.mem_range.mp he
  congr 1
  simp only [rfFsens1]
  rw [idx_range_map _ _ _ _ he2, idx_set_self _ _ _ _ (hprovAll e he2)]

theorem root_entry_eq_dz (M : RFModel) (arg res : List MX) (fseed : List (List MX))
    (d : Nat) (hd : d < fseed.length) (hiin : M.iin < (idx fseed d []).length)
    (hprovAll : ∀ e, e < fseed.length →
      M.iout < (idx (rfProv M arg res fseed) e []).length)
    (hsecond : M.iout < (idx (M.oracleFwd (rfFArg M arg res) (rfFRes M res)
      (rfFseed2 M arg res fseed)) d []).length) :
    idx (idx (rfForward M arg res fseed) d []) M.iout MX.empty
      = rfDz M arg res fseed d := by
  have hnz : ¬ (fseed.length = 0) := by omega
  simp only [rfForward]
  rw [if_neg hnz]
  by_cases ho : 1 < M.nOut
  · rw [if_pos ho]
    rw [idx_range_map _ _ _ _ hd]
    rw [idx_set_self _ _ _ _ hsecond]
    simp only [rfFseed2]
    rw [idx_range_map _ _ _ _ hd]
    have hlen : M.iin < (idx (rfFFseed M fseed) d []).length := by
      rw [idx_rfFFseed M fseed d hd, List.length_set]
      exact hiin
    rw [idx_set_self _ _ _ _ hlen]
    simp only [rfFsens1]
    rw [idx_range_map _ _ _ _ hd, idx_set_self _ _ _ _ (hprovAll d hd)]
  · rw [if_neg ho]
    simp only [rfFsens1]
    rw [idx_range_map _ _ _ _ hd, idx_set_self _ _ _ _ (hprovAll d hd)]

/-- C1: for every direction `d` among the `nfwd` seed directions, the forward
sensitivity of the root output `iout_` is the `d`-th column block of the
batched non-transposed linear solve `J->getSolve(-horzcat(rhs), false,
linsol_)`, where `J` is the cached Jacobian function `jac_f_z` evaluated at
`f_arg` (the inputs with the unknown slot replaced by the converged root
`res[iout_]`), and `rhs` stacks, over all `nfwd` directions, the vectorized
provisional residual seeds produced by the oracle's forward propagation of
the true-input seeds (`rfProv`, which holds the residual output at zero and
the guess seed at zero). -/
theorem forward_root_sensitivity_is_ift_solve (M : RFModel) (arg res : List MX)
    (fseed : List (List MX)) (d : Nat)
    (hd : d < fseed.length) (hiin : M.iin < (idx fseed d []).length)
    (hprovAll : ∀ e, e < fseed.length →
      M.iout < (idx (rfProv M arg res fseed) e []).length)
    (hsecond : M.iout < (idx (M.oracleFwd (rfFArg M arg res) (rfFRes M res)
      (rfFseed2 M arg res fseed)) d []).length) :
    idx (idx (rfForward M arg res fseed) d []) M.iout MX.empty
      = MX.reshapeM
          (MX.hsplitM
            (MX.solveM (M.jacF (rfFArg M arg res))
              (MX.negM (MX.horzcatM ((List.range fseed.length).map
                (fun e => MX.vecM
                  (idx (idx (rfProv M arg res fseed) e []) M.iout MX.empty)))))
              false)
            d)
          (M.sizeIn M.iin).1 (M.sizeIn M.iin).2 :=
  root_entry_eq_dz M arg res fseed d hd hiin hprovAll hsecond

/-- Witness for C1 at a concrete two-output model with one seed direction. -/
theorem forward_root_sensitivity_is_ift_solve_witness :
    idx (idx (rfForward WM wArg wRes wFseed) 0 []) WM.iout MX.empty
      = rfDz WM wArg wRes wFseed 0 :=
  forward_root_sensitivity_is_ift_solve WM wArg wRes wFseed 0 (by decide) (by decide)
    (by decide) (by decide)

/-- C6: when the oracle has auxiliary outputs (`n_out > 1`),
`Rootfinder::forward` re-runs the oracle's forward propagation with the
solved `dz` substituted as the seed for the unknown input, so every
auxiliary output's sensitivity is the second pass's result; and after this
second pass the root output's own sensitivity still equals `dz` (restored at
rootfinder.cpp line 358, not left at the second pass's value). -/
theorem forward_auxiliary_second_pass (M : RFModel) (arg res : List MX)
    (fseed : List (List MX)) (d i : Nat)
    (hd : d < fseed.length) (hiin : M.iin < (idx fseed d []).length)
    (hprovAll : ∀ e, e < fseed.length →
      M.iout < (idx (rfProv M arg res fseed) e []).length)
    (hsecond : M.iout < (idx (M.oracleFwd (rfFArg M arg res) (rfFRes M res)
      (rfFseed2 M arg res fseed)) d []).length)
    (hnout : 1 < M.nOut) (hne : i ≠ M.iout) :
    idx (idx (rfForward M arg res fseed) d []) i MX.empty
      = idx (idx (M.oracleFwd (rfFArg M arg res) (rfFRes M res)
          ((List.range fseed.length).map (fun e =>
            (idx (rfFFseed M fseed) e []).set M.iin (rfDz M arg res fseed e)))) d [])
          i MX.empty
    ∧ idx (idx (rfForward M arg res fseed) d []) M.iout MX.empty
      = rfDz M arg res fseed d := by
  constructor
  · have hnz : ¬ (fseed.length = 0) := by omega
    simp only [rfForward]
    rw [if_neg hnz, if_pos hnout, idx_range_map _ _ _ _ hd]
    rw [idx_set_ne _ _ _ _ _ (fun h => hne h.symm)]
    rw [rfFseed2_resolved M arg res fseed hprovAll]
  · exact root_entry_eq_dz M arg res fseed d hd hiin hprovAll hsecond

/-- Witness for C6 at a concrete two-output model, auxiliary output 0. -/
theorem forward_auxiliary_second_pass_witness :
    idx (idx (rfForward WM wArg wRes wFseed) 0 []) 0 MX.empty
      = idx (idx (WM.oracleFwd (rfFArg WM wArg wRes) (rfFRes WM wRes)
          ((List.range wFseed.length).map (fun e =>
            (idx (rfFFseed WM wFseed) e []).set WM.iin (rfDz WM wArg wRes wFseed e)))) 0 [])
          0 MX.empty
    ∧ idx (idx (rfForward WM wArg wRes wFseed) 0 []) WM.iout MX.empty
      = rfDz WM wArg wRes wFseed 0 :=
  forward_auxiliary_second_pass WM wArg wRes wFseed 0 0 (by decide) (by decide)
    (by decide) (by decide) (by decide) (by decide)

theorem rfReverse_entry (M : RFModel) (arg res : List MX) (aseed asens0 : List (List MX))
    (d : Nat) (hd : d < aseed.length) :
    idx (rfReverse M arg res aseed asens0) d []
      = (let base := (idx (rvMain M arg res aseed) d []).set M.iin
          (rvTmp M asens0 aseed.length d)
         if 1 < M.nOut then
           (List.range base.length).map (fun i =>
             if i ≠ M.iin ∧ i < M.nIn then
               MX.addM (idx base i MX.empty)
                 (idx (idx (rvAux M arg res aseed) d []) i MX.empty)
             else idx base i MX.empty)
         else base) := by
  have hnz : ¬ (aseed.length = 0) := by omega
  simp only [rfReverse]
  rw [if_neg hnz, idx_range_map _ _ _ _ hd]

/-- C2: for every adjoint direction `d`, the multiplier fed back into the
oracle's reverse propagation (as the seed on the residual output, all other
output seeds zeroed) is the `d`-th column block of the batched transposed
solve `J->getSolve(-horzcat(rhs), true, linsol_)` against the cached
Jacobian evaluated at the converged root, where `rhs[e]` equals
`vec(aseed[e][iout_])` when the oracle has a single output, and
`vec(asens_aux[e][iin_] + aseed[e][iout_])` — the residual seed plus the
contribution to the unknown from back-propagating the auxiliary output
seeds with the residual seed held at zero — when auxiliary outputs exist;
the first conjunct locates that reverse pass (`rvMain`) in the result. -/
theorem reverse_multiplier_transposed_solve (M : RFModel) (arg res : List MX)
    (aseed asens0 : List (List MX)) (d i : Nat)
    (hd : d < aseed.length) (hne : i ≠ M.iin) (hilt : i < M.nIn)
    (hmain : (idx (rvMain M arg res aseed) d []).length = M.nIn) :
    (idx (idx (rfReverse M arg res aseed asens0) d []) i MX.empty
      = if 1 < M.nOut then
          MX.addM (idx (idx (rvMain M arg res aseed) d []) i MX.empty)
            (idx (idx (rvAux M arg res aseed) d []) i MX.empty)
        else idx (idx (rvMain M arg res aseed) d []) i MX.empty)
    ∧ rvMain M arg res aseed
      = M.oracleRev (rfFArg M arg res) (rfFRes M res)
          ((List.range aseed.length).map (fun e =>
            (List.range M.nOut).map (fun j =>
              if j = M.iout then
                MX.reshapeM
                  (MX.hsplitM
                    (MX.solveM (M.jacF (rfFArg M arg res))
                      (MX.negM (MX.horzcatM ((List.range aseed.length).map (fun e2 =>
                        if 1 < M.nOut then
                          MX.vecM (MX.addM
                            (idx (idx (rvAux M arg res aseed) e2 []) M.iin MX.empty)
                            (idx (idx aseed e2 []) M.iout MX.empty))
                        else MX.vecM (idx (idx aseed e2 []) M.iout MX.empty)))))
                      true)
                    e)
                  (M.sizeOut M.iout).1 (M.sizeOut M.iout).2
              else MX.zeroSz (M.sizeOut j).1 (M.sizeOut j).2))) := by
  constructor
  · rw [rfReverse_entry M arg res aseed asens0 d hd]
    by_cases ho : 1 < M.nOut
    · simp only [if_pos ho]
      have hbl : i < ((idx (rvMain M arg res aseed) d []).set M.iin
          (rvTmp M asens0 aseed.length d)).length := by
        rw [List.length_set, hmain]; exact hilt
      rw [idx_range_map _ _ _ _ hbl]
      rw [if_pos ⟨hne, hilt⟩]
      rw [idx_set_ne _ _ _ _ _ (fun h => hne h.symm)]
    · simp only [if_neg ho]
      rw [idx_set_ne _ _ _ _ _ (fun h => hne h.symm)]
  · rfl

/-- Witness for C2 at a concrete two-output model with one adjoint direction. -/
theorem reverse_multiplier_transposed_solve_witness :
    (idx (idx (rfReverse WM wArg wRes wAseed wAsens0) 0 []) 1 MX.empty
      = if 1 < WM.nOut then
          MX.addM (idx (idx (rvMain WM wArg wRes wAseed) 0 []) 1 MX.empty)
            (idx (idx (rvAux WM wArg wRes wAseed) 0 []) 1 MX.empty)
        else idx (idx (rvMain WM wArg wRes wAseed) 0 []) 1 MX.empty)
    ∧ rvMain WM wArg wRes wAseed
      = WM.oracleRev (rfFArg WM wArg wRes) (rfFRes WM wRes)
          ((List.range wAseed.length).map (fun e =>
            (List.range WM.nOut).map (fun j =>
              if j = WM.iout then
                MX.reshapeM
                  (MX.hsplitM
                    (MX.solveM (WM.jacF (rfFArg WM wArg wRes))
                      (MX.negM (MX.horzcatM ((List.range wAseed.length).map (fun e2 =>
                        if 1 < WM.nOut then
                          MX.vecM (MX.addM
                            (idx (idx (rvAux WM wArg wRes wAseed) e2 []) WM.iin MX.empty)
                            (idx (idx wAseed e2 []) WM.iout MX.empty))
                        else MX.vecM (idx (idx wAseed e2 []) WM.iout MX.empty)))))
                      true)
                    e)
                  (WM.sizeOut WM.iout).1 (WM.sizeOut WM.iout).2
              else MX.zeroSz (WM.sizeOut j).1 (WM.sizeOut j).2))) :=
  reverse_multiplier_transposed_solve WM wArg wRes wAseed wAsens0 0 1 (by decide)
    (by decide) (by decide) (by decide)

/-- C7: after `Rootfinder::reverse`, the adjoint sensitivity slot for the
unknown input `asens[d][iin_]` equals the value the caller pre-populated
(after the two resizes), or the zero matrix of `size_in(iin_)` if that slot
was empty — the reverse propagation never overwrites it (rootfinder.cpp
lines 415-428); and when auxiliary outputs exist, their direct
contributions are added to the other input slots. -/
theorem reverse_guess_slot_preserved (M : RFModel) (arg res : List MX)
    (aseed asens0 : List (List MX)) (d i : Nat)
    (hd : d < aseed.length)
    (hmain : (idx (rvMain M arg res aseed) d []).length = M.nIn)
    (hiin : M.iin < M.nIn) (hne : i ≠ M.iin) (hilt : i < M.nIn) :
    (idx (idx (rfReverse M arg res aseed asens0) d []) M.iin MX.empty
      = if (idx (resizeTo (idx (resizeTo asens0 aseed.length []) d [])
              M.nIn MX.empty) M.iin MX.empty).isEmptyBoth
        then MX.zeroSz (M.sizeIn M.iin).1 (M.sizeIn M.iin).2
        else idx (resizeTo (idx (resizeTo asens0 aseed.length []) d [])
              M.nIn MX.empty) M.iin MX.empty)
    ∧ (1 < M.nOut →
        ∃ b, idx (idx (rfReverse M arg res aseed asens0) d []) i MX.empty
          = MX.addM b (idx (idx (rvAux M arg res aseed) d []) i MX.empty)) := by
  constructor
  · show idx (idx (rfReverse M arg res aseed asens0) d []) M.iin MX.empty
      = rvTmp M asens0 aseed.length d
    rw [rfReverse_entry M arg res aseed asens0 d hd]
    have hbl : M.iin < ((idx (rvMain M arg res aseed) d []).set M.iin
        (rvTmp M asens0 aseed.length d)).length := by
      rw [List.length_set, hmain]; exact hiin
    by_cases ho : 1 < M.nOut
    · simp only [if_pos ho]
      rw [idx_range_map _ _ _ _ hbl]
      have hcond : ¬ (M.iin ≠ M.iin ∧ M.iin < M.nIn) := by
        intro h; exact h.1 rfl
      rw [if_neg hcond]
      rw [idx_set_self _ _ _ _ (by rw [hmain]; exact hiin)]
    · simp only [if_neg ho]
      rw [idx_set_self _ _ _ _ (by rw [hmain]; exact hiin)]
  · intro ho
    refine ⟨idx ((idx (rvMain M arg res aseed) d []).set M.iin
      (rvTmp M asens0 aseed.length d)) i MX.empty, ?_⟩
    rw [rfReverse_entry M arg res aseed asens0 d hd]
    simp only [if_pos ho]
    have hbl : i < ((idx (rvMain M arg res aseed) d []).set M.iin
        (rvTmp M asens0 aseed.length d)).length := by
      rw [List.length_set, hmain]; exact hilt
    rw [idx_range_map _ _ _ _ hbl]
    rw [if_pos ⟨hne, hilt⟩]

/-- Witness for C7 at a concrete model with a non-empty pre-populated guess
slot. -/
theorem reverse_guess_slot_preserved_witness :
    (idx (idx (rfReverse WM wArg wRes wAseed wAsens0) 0 []) WM.iin MX.empty
      = if (idx (resizeTo (idx (resizeTo wAsens0 wAseed.length []) 0 [])
              WM.nIn MX.empty) WM.iin MX.empty).isEmptyBoth
        then MX.zeroSz (WM.sizeIn WM.iin).1 (WM.sizeIn WM.iin).2
        else idx (resizeTo (idx (resizeTo wAsens0 wAseed.length []) 0 [])
              WM.nIn MX.empty) WM.iin MX.empty)
    ∧ (1 < WM.nOut →
        ∃ b, idx (idx (rfReverse WM wArg wRes wAseed wAsens0) 0 []) 1 MX.empty
          = MX.addM b (idx (idx (rvAux WM wArg wRes wAseed) 0 []) 1 MX.empty)) :=
  reverse_guess_slot_preserved WM wArg wRes wAseed wAsens0 0 1 (by decide) (by decide)
    (by decide) (by decide) (by decide)

theorem idx_of_le {α : Type} (l : List α) (i : Nat) (d : α) (h : l.length ≤ i) :
    idx l i d = d := by
  simp [idx, List.getD_eq_getElem?_getD, List.getElem?_eq_none h]

theorem lt_of_idx_some {α : Type} (l : List (Option α)) (i : Nat) (b : α)
    (h : idx l i none = some b) : i < l.length := by
  by_contra hc
  rw [idx_of_le l i none (by omega)] at h
  exact Option.noConfusion h

/-- C4: `Rootfinder::sp_fwd` computes the root output's bits by passing a
null dependency pointer for the unknown input, running the oracle's forward
structural propagation to obtain the residual bits, and propagating those
through a non-transposed structural solve against the Jacobian sparsity
(`sp_jac_.spsolve` with `tr = false`, starting from a zero-filled buffer);
when the oracle has more than one output, a second oracle forward pass with
the solved bits substituted for the unknown produces the auxiliary outputs'
bits. -/
theorem sp_fwd_structure (M : SpModel) (arg res : List (Option BVec)) (i : Nat)
    (hiout : M.iout < res.length) (hne : i ≠ M.iout) (hi : i < res.length) :
    (idx (spFwdRun M arg res) M.iout none
      = (idx res M.iout none).map (fun _ =>
          M.spsolve (bzero M.n) (M.spFwd (arg.set M.iin none) M.iout) false))
    ∧ (idx (spFwdRun M arg res) i none
      = if 1 < M.nOut then
          (idx res i none).map (fun _ =>
            M.spFwd (arg.set M.iin (some
              (M.spsolve (bzero M.n) (M.spFwd (arg.set M.iin none) M.iout) false))) i)
        else idx res i none) := by
  have harg : (arg.set M.iin none).set M.iin
      (some (M.spsolve (bzero M.n) (M.spFwd (arg.set M.iin none) M.iout) false))
      = arg.set M.iin
        (some (M.spsolve (bzero M.n) (M.spFwd (arg.set M.iin none) M.iout) false)) :=
    List.set_set _ _ _ _
  simp only [spFwdRun, harg]
  by_cases hs : (idx res M.iout none).isSome
  · obtain ⟨b, hb⟩ := Option.isSome_iff_exists.mp hs
    simp only [if_pos hs]
    by_cases ho : 1 < M.nOut
    · simp only [if_pos ho]
      constructor
      · rw [idx_range_map _ _ _ _ (by rw [List.length_set]; exact hiout)]
        rw [if_pos rfl, idx_set_self _ _ _ _ hiout, hb]
        rfl
      · rw [idx_range_map _ _ _ _ (by rw [List.length_set]; exact hi)]
        rw [if_neg hne, idx_set_ne _ _ _ _ _ (fun h => hne h.symm)]
    · simp only [if_neg ho]
      constructor
      · rw [idx_set_self _ _ _ _ hiout, hb]
        rfl
      · rw [idx_set_ne _ _ _ _ _ (fun h => hne h.symm)]
  · have hn : idx res M.iout none = none := Option.not_isSome_iff_eq_none.mp hs
    simp only [if_neg hs]
    by_cases ho : 1 < M.nOut
    · simp only [if_pos ho]
      constructor
      · rw [idx_range_map _ _ _ _ hiout, if_pos rfl, hn]
        rfl
      · rw [idx_range_map _ _ _ _ hi, if_neg hne]
    · simp only [if_neg ho]
      exact ⟨by rw [hn]; rfl, by trivial⟩

/-- Witness for C4 at a concrete two-output structural model. -/
theorem sp_fwd_structure_witness :
    (idx (spFwdRun WS wSArg wSRes) WS.iout none
      = (idx wSRes WS.iout none).map (fun _ =>
          WS.spsolve (bzero WS.n) (WS.spFwd (wSArg.set WS.iin none) WS.iout) false))
    ∧ (idx (spFwdRun WS wSArg wSRes) 0 none
      = if 1 < WS.nOut then
          (idx wSRes 0 none).map (fun _ =>
            WS.spFwd (wSArg.set WS.iin (some
              (WS.spsolve (bzero WS.n) (WS.spFwd (wSArg.set WS.iin none) WS.iout) false))) 0)
        else idx wSRes 0 none) :=
  sp_fwd_structure WS wSArg wSRes 0 (by decide) (by decide) (by decide)

/-- C5: `Rootfinder::sp_rev` extracts the dependency bits of the residual
output `res[iout_]` and clears that buffer (all-zero on return, or the
extracted seed taken as all-zero on a null pointer); the auxiliary outputs'
reverse-propagated contribution is ORed into those bits only when the oracle
has more than one output; the combined bits are resolved through a
transposed structural solve (`sp_jac_.spsolve` with `tr = true`, from a
zero-filled buffer); and the final oracle reverse pass passes a null pointer
for the unknown input, so the guess buffer `arg[iin_]` receives no
contribution (third conjunct shows the other inputs' accumulation, second
shows `arg[iin_]` unchanged). -/
theorem sp_rev_structure (M : SpModel) (arg res : List (Option BVec)) (i : Nat)
    (hiin : M.iin < arg.length) (hne : i ≠ M.iin) (hi : i < arg.length) :
    (idx (spRevRun M arg res).2 M.iout none
      = (idx res M.iout none).map (fun _ => bzero M.n))
    ∧ (idx (spRevRun M arg res).1 M.iin none = idx arg M.iin none)
    ∧ (idx (spRevRun M arg res).1 i none
      = (if 1 < M.nOut then
           (idx arg i none).map (fun b => lorB b (M.spRev
             ((List.range M.nOut).map
               (fun j => if j = M.iout then none else idx res j none)) i))
         else idx arg i none).map (fun b => lorB b (M.spRev
           ((List.range M.nOut).map (fun j =>
             if j = M.iout then
               some (M.spsolve (bzero M.n)
                 (if 1 < M.nOut then
                    lorB ((idx res M.iout none).getD (bzero M.n))
                      (M.spRev ((List.range M.nOut).map
                        (fun j2 => if j2 = M.iout then none else idx res j2 none)) M.iin)
                  else (idx res M.iout none).getD (bzero M.n))
                 true)
             else none)) i))) := by
  simp only [spRevRun]
  by_cases hs : (idx res M.iout none).isSome
  · obtain ⟨b, hb⟩ := Option.isSome_iff_exists.mp hs
    have hout : M.iout < res.length := lt_of_idx_some res M.iout b hb
    simp only [if_pos hs]
    have hseq : (List.range M.nOut).map
        (fun j => if j = M.iout then none
                  else idx (res.set M.iout (some (bzero M.n))) j none)
        = (List.range M.nOut).map
            (fun j => if j = M.iout then none else idx res j none) := by
      apply List.map_congr_left
      intro j hj
      by_cases hj2 : j = M.iout
      · rw [if_pos hj2, if_pos hj2]
      · rw [if_neg hj2, if_neg hj2, idx_set_ne _ _ _ _ _ (fun h => hj2 h.symm)]
    simp only [hseq]
    refine ⟨?_, ?_, ?_⟩
    · rw [idx_set_self _ _ _ _ hout, hb]
      rfl
    · by_cases ho : 1 < M.nOut
      · simp only [if_pos ho]
        rw [idx_range_map _ _ _ _
          (by rw [List.length_map, List.length_range]; exact hiin)]
        rw [if_pos rfl, idx_range_map _ _ _ _ hiin, if_pos rfl]
      · simp only [if_neg ho]
        rw [idx_range_map _ _ _ _ hiin, if_pos rfl]
    · by_cases ho : 1 < M.nOut
      · simp only [if_pos ho]
        rw [idx_range_map _ _ _ _
          (by rw [List.length_map, List.length_range]; exact hi)]
        rw [if_neg hne, idx_range_map _ _ _ _ hi, if_neg hne]
      · simp only [if_neg ho]
        rw [idx_range_map _ _ _ _ hi, if_neg hne]
  · have hn : idx res M.iout none = none := Option.not_isSome_iff_eq_none.mp hs
    simp only [if_neg hs]
    refine ⟨?_, ?_, ?_⟩
    · rw [hn]
      rfl
    · by_cases ho : 1 < M.nOut
      · simp only [if_pos ho]
        rw [idx_range_map _ _ _ _
          (by rw [List.length_map, List.length_range]; exact hiin)]
        rw [if_pos rfl, idx_range_map _ _ _ _ hiin, if_pos rfl]
      · simp only [if_neg ho]
        rw [idx_range_map _ _ _ _ hiin, if_pos rfl]
    · by_cases ho : 1 < M.nOut
      · simp only [if_pos ho]
        rw [idx_range_map _ _ _ _
          (by rw [List.length_map, List.length_range]; exact hi)]
        rw [if_neg hne, idx_range_map _ _ _ _ hi, if_neg hne]
      · simp only [if_neg ho]
        rw [idx_range_map _ _ _ _ hi, if_neg hne]

/-- Witness for C5 at a concrete two-output structural model, other input 1. -/
theorem sp_rev_structure_witness :
    (idx (spRevRun WS wSArg wSRes).2 WS.iout none
      = (idx wSRes WS.iout none).map (fun _ => bzero WS.n))
    ∧ (idx (spRevRun WS wSArg wSRes).1 WS.iin none = idx wSArg WS.iin none)
    ∧ (idx (spRevRun WS wSArg wSRes).1 1 none
      = (if 1 < WS.nOut then
           (idx wSArg 1 none).map (fun b => lorB b (WS.spRev
             ((List.range WS.nOut).map
               (fun j => if j = WS.iout then none else idx wSRes j none)) 1))
         else idx wSArg 1 none).map (fun b => lorB b (WS.spRev
           ((List.range WS.nOut).map (fun j =>
             if j = WS.iout then
               some (WS.spsolve (bzero WS.n)
                 (if 1 < WS.nOut then
                    lorB ((idx wSRes WS.iout none).getD (bzero WS.n))
                      (WS.spRev ((List.range WS.nOut).map
                        (fun j2 => if j2 = WS.iout then none else idx wSRes j2 none)) WS.iin)
                  else (idx wSRes WS.iout none).getD (bzero WS.n))
                 true)
             else none)) 1))) :=
  sp_rev_structure WS wSArg wSRes 1 (by decide) (by decide) (by decide)

/-- C8: whenever the Jacobian sparsity has no perfect matching between rows
and columns, `Rootfinder::init` — given a configuration passing the earlier
index/shape/dimension checks — fails with the structural-singularity error
reporting the structural rank versus the dimension; this happens during
setup, before any evaluation or numeric solve (`rfInit` performs none). -/
theorem init_structural_singularity (o : OracleSig) (iin iout : Int)
    (jacSp : JacPattern) (ucLen : Nat)
    (h1 : 0 ≤ iin ∧ iin < o.nIn ∧ 0 < o.nIn)
    (h2 : 0 ≤ iout ∧ iout < o.nOut ∧ 0 < o.nOut)
    (h3 : (o.spOut iout.toNat).isDense ∧ (o.spOut iout.toNat).isColumn)
    (h4 : (o.spIn iin.toNat).isDense ∧ (o.spIn iin.toNat).isColumn)
    (h5 : (o.spIn iin.toNat).nnz = (o.spOut iout.toNat).nnz)
    (hsing : ¬ hasPerfectMatching jacSp) :
    rfInit o iin iout jacSp ucLen
      = .error (.structuralSingularity (sprankJ jacSp) jacSp.n) := by
  simp only [rfInit]
  rw [if_neg (not_not_intro h1), if_neg (not_not_intro h2), if_neg (not_not_intro h3),
    if_neg (not_not_intro h4),
    if_neg (by omega : ¬ (o.spIn iin.toNat).nnz ≠ (o.spOut iout.toNat).nnz),
    if_pos hsing]

/-- Witness for C8: a 1-by-1 Jacobian pattern with no nonzeros. -/
theorem init_structural_singularity_witness :
    rfInit wSig 0 0 wJacSing 0
      = .error (.structuralSingularity (sprankJ wJacSing) wJacSing.n) :=
  init_structural_singularity wSig 0 0 wJacSing 0 (by decide) (by decide) (by decide)
    (by decide) (by decide) (by decide)

/-- C9: `Rootfinder::init` fails at setup — returning an error and never
proceeding — whenever the implicit input or output index is out of range,
the residual or the unknown is not a dense column vector, the unknown's
nonzero count differs from the residual's, or a supplied constraint vector
has a length that is neither 0 nor `n`. -/
theorem init_configuration_errors (o : OracleSig) (iin iout : Int)
    (jacSp : JacPattern) (ucLen : Nat)
    (hbad : ¬ (0 ≤ iin ∧ iin < o.nIn ∧ 0 < o.nIn)
      ∨ ¬ (0 ≤ iout ∧ iout < o.nOut ∧ 0 < o.nOut)
      ∨ ¬ ((o.spOut iout.toNat).isDense ∧ (o.spOut iout.toNat).isColumn)
      ∨ ¬ ((o.spIn iin.toNat).isDense ∧ (o.spIn iin.toNat).isColumn)
      ∨ (o.spIn iin.toNat).nnz ≠ (o.spOut iout.toNat).nnz
      ∨ ¬ (ucLen = (o.spOut iout.toNat).nnz ∨ ucLen = 0)) :
    initFails (rfInit o iin iout jacSp ucLen) = true := by
  simp only [rfInit, initFails]
  split_ifs <;> first
    | rfl
    | (exfalso; tauto)

/-- Witness for C9: an implicit input index out of range. -/
theorem init_configuration_errors_witness :
    initFails (rfInit wSig (-1) 0 wJacOk 0) = true :=
  init_configuration_errors wSig (-1) 0 wJacOk 0 (by decide)

end Rootfinder
